import Mathlib

/-!
Verification of the mplkorfball pitch-dimension model (`mplkorfball/dimensions.py`)
and of the 2D binned-statistic engine (`mplkorfball/heatmap.py`).

Modelling conventions.
Numbers are rationals: every numeric literal in the source is a short decimal and
all derived values are closed-form `+ - * /` of those, so each value is exactly
representable; float rounding is abstracted away (exact real-number semantics).
Python `None` is `Option.none`; a Python dataclass field typed `float` can hold
`None`, hence all numeric fields below are `Option ℚ`.  Arithmetic on `None`
raises `TypeError`; fallible computations therefore live in `Except PyErr`.
The spec's error taxonomy is mapped onto the concrete exceptions of the code:
`dimensionMismatch` is the `ValueError("x and y must be the same size")`,
`missingParameter` the `ValueError` for a missing `values` argument,
`valuesLengthMismatch` the `ValueError` scipy raises when `values` has a length
different from the sample, `attributeError` the `AttributeError` raised by
`dim.invert_y` when `dim is None`, `typeError` any `TypeError` from arithmetic
involving `None`, and `zeroDivisionError` a division by zero.
-/

inductive PyErr
  | typeError
  | dimensionMismatch
  | missingParameter
  | valuesLengthMismatch
  | attributeError
  | zeroDivisionError
deriving DecidableEq

/-- Python `a + b` where either operand may be `None` (TypeError). -/
def pyAdd : Option ℚ → Option ℚ → Except PyErr ℚ
  | some a, some b => Except.ok (a + b)
  | _, _ => Except.error PyErr.typeError

/-- Python `a - b` where either operand may be `None` (TypeError). -/
def pySub : Option ℚ → Option ℚ → Except PyErr ℚ
  | some a, some b => Except.ok (a - b)
  | _, _ => Except.error PyErr.typeError

/-- Python `c * b` with a concrete left factor and a possibly-`None` right factor. -/
def pyMulC (c : ℚ) : Option ℚ → Except PyErr ℚ
  | some b => Except.ok (c * b)
  | none => Except.error PyErr.typeError

/-- Python `a / b` where either operand may be `None` (TypeError) and a zero
divisor raises `ZeroDivisionError`. -/
def pyDiv : Option ℚ → Option ℚ → Except PyErr ℚ
  | some a, some b =>
      if b = 0 then Except.error PyErr.zeroDivisionError else Except.ok (a / b)
  | _, _ => Except.error PyErr.typeError

/-- Unwrap an optional number where the Python code feeds the value into numpy
and a `None` would surface as a TypeError. -/
def asNum : Option ℚ → Except PyErr ℚ
  | some v => Except.ok v
  | none => Except.error PyErr.typeError

/-- `KorfballBaseDims` of `dimensions.py`: the dataclass holding the pitch
dimensions.  Fields follow the source order; the `Optional` calculated fields
default to `None`, and the arrays built by `pitch_markings` default empty
(standing for numpy arrays not yet assigned). -/
structure KorfballDims where
  pitch_width : Option ℚ
  pitch_length : Option ℚ
  korf_offset : Option ℚ
  korf_width : Option ℚ
  korf_length : Option ℚ
  twofifty_width : Option ℚ
  twofifty_length : Option ℚ
  arc : Option ℚ
  invert_y : Bool
  origin_center : Bool
  left : Option ℚ := none
  right : Option ℚ := none
  bottom : Option ℚ := none
  top : Option ℚ := none
  aspect : Option ℚ := none
  width : Option ℚ := none
  length : Option ℚ := none
  post_distance : Option ℚ := none
  post_left : Option ℚ := none
  post_right : Option ℚ := none
  korf_left : Option ℚ := none
  korf_right : Option ℚ := none
  penalty_left : Option ℚ := none
  penalty_right : Option ℚ := none
  penalty_area_top : Option ℚ := none
  penalty_area_bottom : Option ℚ := none
  penalty_area_left : Option ℚ := none
  penalty_area_right : Option ℚ := none
  freepass_left : Option ℚ := none
  freepass_right : Option ℚ := none
  center_width : Option ℚ := none
  center_length : Option ℚ := none
  x_markings_sorted : List (Option ℚ) := []
  y_markings_sorted : List (Option ℚ) := []
  pitch_extent : List (Option ℚ) := []

/-- Ordering used to model `np.sort` on the y-markings array; `none` sorts
first.  (In the source `np.sort` is only reached when `invert_y` is true, which
never happens for the dims the factories build, and then only on all-`some`
arrays; the `none` clause merely keeps the function total.) -/
def oleB : Option ℚ → Option ℚ → Bool
  | none, _ => true
  | some _, none => false
  | some a, some b => decide (a ≤ b)

/-- Insertion step of the insertion sort modelling `np.sort`. -/
def insertOpt (a : Option ℚ) : List (Option ℚ) → List (Option ℚ)
  | [] => [a]
  | b :: t => if oleB a b then a :: b :: t else b :: insertOpt a t

/-- Insertion sort modelling `np.sort` (ascending). -/
def sortOpt : List (Option ℚ) → List (Option ℚ)
  | [] => []
  | a :: t => insertOpt a (sortOpt t)

/-- `KorfballBaseDims.pitch_markings`: build `x_markings_sorted`,
`y_markings_sorted` and `pitch_extent`; under `invert_y` the y-array is
re-sorted and the extent lists `top` before `bottom`. -/
def pitch_markings (d : KorfballDims) : KorfballDims :=
  let xm := [d.left, d.penalty_area_left, d.post_left, d.penalty_left,
             d.freepass_left, d.center_length, d.freepass_right, d.penalty_right,
             d.post_right, d.penalty_area_right, d.right]
  let ym := [d.bottom, d.penalty_area_bottom, d.center_width, d.penalty_area_top, d.top]
  if d.invert_y then
    { d with x_markings_sorted := xm, y_markings_sorted := sortOpt ym,
             pitch_extent := [d.left, d.right, d.top, d.bottom] }
  else
    { d with x_markings_sorted := xm, y_markings_sorted := ym,
             pitch_extent := [d.left, d.right, d.bottom, d.top] }

/-- `KorfballBaseDims.setup_dims`: runs `pitch_markings`. -/
def setup_dims (d : KorfballDims) : KorfballDims := pitch_markings d

/-- `KorfballBaseDims.penalty_area_dims`: derive `penalty_right`,
`penalty_area_bottom` and `penalty_area_top`. -/
def penalty_area_dims (d : KorfballDims) : Except PyErr KorfballDims :=
  (pySub d.right d.penalty_left).bind fun pr =>
  let d1 := { d with penalty_right := some pr }
  let neg : ℚ := if d1.invert_y then -1 else 1
  (pyMulC neg d1.twofifty_width).bind fun m1 =>
  (pySub d1.center_width (some m1)).bind fun pab =>
  let d2 := { d1 with penalty_area_bottom := some pab }
  (pyMulC neg d2.twofifty_width).bind fun m2 =>
  (pyAdd d2.center_width (some m2)).bind fun pat =>
  Except.ok { d2 with penalty_area_top := some pat }

/-- `FixedDimsKorfball.__post_init__`: only runs `setup_dims`. -/
def fixedPostInit (d : KorfballDims) : KorfballDims := setup_dims d

/-- `CustomDimsKorfball.__post_init__`: derive the custom-pitch landmarks in
source order, then run `penalty_area_dims` and `setup_dims`.  Note the source
never assigns `freepass_left`, `freepass_right`, `penalty_area_left` or
`penalty_area_right` on this path, so those fields keep their `None` default. -/
def customPostInit (d0 : KorfballDims) (post_distance : Option ℚ) :
    Except PyErr KorfballDims :=
  let d1 := { d0 with right := d0.pitch_length, top := d0.pitch_width }
  (pyAdd d1.left post_distance).bind fun pl =>
  let d2 := { d1 with post_left := some pl }
  (pySub d2.right d2.post_left).bind fun pr =>
  let d3 := { d2 with post_right := some pr }
  (pyDiv d3.pitch_width (some 2)).bind fun cw =>
  let d4 := { d3 with center_width := some cw }
  (pyDiv d4.pitch_length (some 2)).bind fun cl =>
  let d5 := { d4 with center_length := some cl }
  (pyAdd d5.post_left d5.korf_offset).bind fun k1 =>
  (pyDiv d5.korf_length (some 2)).bind fun k2 =>
  let d6 := { d5 with korf_left := some (k1 + k2) }
  (pySub d6.right d6.korf_left).bind fun kr =>
  let d7 := { d6 with korf_right := some kr }
  (pyAdd d7.post_left d7.twofifty_length).bind fun pel =>
  let d8 := { d7 with penalty_left := some pel }
  (penalty_area_dims d8).bind fun d9 =>
  Except.ok (setup_dims d9)

/-- `ikf_dims()`: the fixed 40 x 20 pitch with all landmarks given as literal
constants (note the literal `korf_right = 33.50`). -/
def ikf_dims : KorfballDims :=
  fixedPostInit
    { pitch_width := some 20, pitch_length := some 40,
      korf_offset := some (4/100), korf_width := some (4/10), korf_length := some (4/10),
      twofifty_width := some (5/2), twofifty_length := some (5/2), arc := some 90,
      invert_y := false, origin_center := false,
      left := some 0, right := some 40, bottom := some 0, top := some 20, aspect := some 1,
      width := some 20, length := some 40, post_distance := some (667/100),
      post_left := some (667/100), post_right := some (3333/100),
      korf_left := some (69/10), korf_right := some (3350/100),
      penalty_left := some (917/100), penalty_right := some (3083/100),
      penalty_area_top := some (125/10), penalty_area_bottom := some (75/10),
      penalty_area_left := some (417/100), penalty_area_right := some (1583/100),
      freepass_left := some (1167/100), freepass_right := some (2833/100),
      center_width := some 10, center_length := some 20 }

/-- `custom_dims(pitch_width, pitch_length, post_distance)`. -/
def custom_dims (pitch_width pitch_length post_distance : Option ℚ) :
    Except PyErr KorfballDims :=
  customPostInit
    { pitch_width := pitch_width, pitch_length := pitch_length,
      korf_offset := some (12/100), korf_width := some (4/10), korf_length := some (4/10),
      twofifty_width := some (5/2), twofifty_length := some (5/2), arc := some 90,
      invert_y := false, origin_center := false,
      bottom := some 0, left := some 0, aspect := some 1,
      width := pitch_width, length := pitch_length }
    post_distance

/-- `NetballBaseDims` of `dimensions.py`. -/
structure NetballDims where
  pitch_width : Option ℚ
  pitch_length : Option ℚ
  circle_length : Option ℚ
  circle_width : Option ℚ
  third_length : Option ℚ
  center_diameter : Option ℚ
  invert_y : Bool
  origin_center : Bool
  left : Option ℚ := none
  right : Option ℚ := none
  bottom : Option ℚ := none
  top : Option ℚ := none
  aspect : Option ℚ := none
  width : Option ℚ := none
  length : Option ℚ := none
  center_width : Option ℚ := none
  center_length : Option ℚ := none
  third_left : Option ℚ := none
  third_right : Option ℚ := none
  x_markings_sorted : List (Option ℚ) := []
  y_markings_sorted : List (Option ℚ) := []
  pitch_extent : List (Option ℚ) := []

/-- `NetballBaseDims.pitch_markings`. -/
def NetballDims.pitchMarkings (d : NetballDims) : NetballDims :=
  let xm := [d.left, d.third_left, d.center_length, d.third_right, d.right]
  let ym := [d.bottom, d.center_width, d.top]
  if d.invert_y then
    { d with x_markings_sorted := xm, y_markings_sorted := sortOpt ym,
             pitch_extent := [d.left, d.right, d.top, d.bottom] }
  else
    { d with x_markings_sorted := xm, y_markings_sorted := ym,
             pitch_extent := [d.left, d.right, d.bottom, d.top] }

/-- `FixedDimsNetball.__post_init__` (note `self.left` is still `None` when
`third_left` is derived, so this construction always raises TypeError). -/
def netballFixedPostInit (d : NetballDims) : Except PyErr NetballDims :=
  (pyDiv d.pitch_width (some 2)).bind fun cw =>
  let d1 := { d with center_width := some cw }
  (pyDiv d1.pitch_length (some 2)).bind fun cl =>
  let d2 := { d1 with center_length := some cl }
  (pyAdd d2.left d2.third_length).bind fun tl =>
  let d3 := { d2 with third_left := some tl }
  (pySub d3.right d3.third_length).bind fun tr =>
  Except.ok (NetballDims.pitchMarkings { d3 with third_right := some tr })

/-- `netball_dims()`. -/
def netball_dims : Except PyErr NetballDims :=
  netballFixedPostInit
    { pitch_length := some (61/2), pitch_width := some (61/4),
      circle_length := some (49/10), circle_width := some (49/10),
      third_length := some (10167/1000), center_diameter := some (9/10),
      invert_y := false, origin_center := false }

/-- The two dataclass families `create_pitch_dims` can return. -/
inductive PitchDims
  | korfball (d : KorfballDims)
  | netball (d : NetballDims)

/-- `create_pitch_dims(pitch_type, pitch_width, pitch_length, post_distance)`.
The source tests `'netball'`, `'ikf'` and `'custom'` in order; any other name
falls through to the final `return custom_dims(...)` line (the module-level
`valid` list is never consulted). -/
def create_pitch_dims (pitch_type : String)
    (pitch_width pitch_length post_distance : Option ℚ) : Except PyErr PitchDims :=
  if pitch_type = "netball" then netball_dims.map PitchDims.netball
  else if pitch_type = "ikf" then Except.ok (PitchDims.korfball ikf_dims)
  else if pitch_type = "custom" then
    match post_distance with
    | none =>
        (pyDiv pitch_length (some 6)).bind fun pd =>
        (custom_dims pitch_width pitch_length (some pd)).map PitchDims.korfball
    | some pd =>
        (custom_dims pitch_width pitch_length (some pd)).map PitchDims.korfball
  else (custom_dims pitch_width pitch_length post_distance).map PitchDims.korfball

/-- Strict comparison of two optional coordinates: true only when both are set
and the first is smaller (comparison with `None` raises in Python, so an unset
side can never satisfy the ordering invariant). -/
def oltB : Option ℚ → Option ℚ → Bool
  | some a, some b => decide (a < b)
  | _, _ => false

/-- The anatomical ordering chain exactly as the claim states it. -/
def ordChainB (d : KorfballDims) : Bool :=
  oltB d.post_left d.korf_left && oltB d.korf_left d.penalty_left &&
  oltB d.penalty_left d.freepass_left && oltB d.freepass_left d.center_length &&
  oltB d.center_length d.freepass_right && oltB d.freepass_right d.penalty_right &&
  oltB d.penalty_right d.korf_right && oltB d.korf_right d.post_right

/-- The ordering chain with the two final landmarks transposed
(`post_right` before `korf_right`), which is what the ikf constants satisfy. -/
def ordChainIkfAmendB (d : KorfballDims) : Bool :=
  oltB d.post_left d.korf_left && oltB d.korf_left d.penalty_left &&
  oltB d.penalty_left d.freepass_left && oltB d.freepass_left d.center_length &&
  oltB d.center_length d.freepass_right && oltB d.freepass_right d.penalty_right &&
  oltB d.penalty_right d.post_right && oltB d.post_right d.korf_right

/-- All landmark coordinate fields named by the claim, tested for being set. -/
def landmarksPopulatedB (d : KorfballDims) : Bool :=
  [d.post_left, d.post_right, d.korf_left, d.korf_right, d.penalty_left,
   d.penalty_right, d.penalty_area_top, d.penalty_area_bottom, d.penalty_area_left,
   d.penalty_area_right, d.freepass_left, d.freepass_right, d.center_width,
   d.center_length].all Option.isSome

/-- True when `create_pitch_dims` returned a korfball dimension model. -/
def isKorfballOk : Except PyErr PitchDims → Bool
  | Except.ok (PitchDims.korfball _) => true
  | _ => false

/-- The named statistics `bin_statistic` recognizes and maps to callables.
(A user-supplied callable is also accepted by the source; the claims only
concern the named ones, and only `count` numerically.) -/
inductive Statistic
  | count
  | mean
  | std
  | median
  | sum
  | min
  | max
  | circmean
deriving DecidableEq

/-- Insertion step for the rational insertion sort used by the median. -/
def insertLe (a : ℚ) : List ℚ → List ℚ
  | [] => [a]
  | b :: t => if a ≤ b then a :: b :: t else b :: insertLe a t

/-- Insertion sort on rationals. -/
def isort : List ℚ → List ℚ
  | [] => []
  | a :: t => insertLe a (isort t)

/-- `np.nanmedian` on a NaN-free list: the middle element of the sorted list,
or the mean of the two middle elements; NaN on an empty bin is `none`. -/
def medianQ (l : List ℚ) : Option ℚ :=
  let s := isort l
  if s.length = 0 then none
  else if s.length % 2 = 1 then s[s.length / 2]?
  else
    match s[s.length / 2 - 1]?, s[s.length / 2]? with
    | some a, some b => some ((a + b) / 2)
    | _, _ => none

/-- The per-bin reduction scipy applies to the values that fall in one bin.
A cell value of `none` stands for the NaN scipy stores when the callable fails
or returns NaN on an empty bin.  `count` is the length of the bin (values are
ignored); the inputs contain no NaN in this model, so the nan-aware reductions
coincide with the plain ones.  `std` (a square root) and `circmean`
(trigonometric) do not live in ℚ; they are mapped to `none` — no claim depends
on their numeric output, only on the argument-checking control flow. -/
def applyStat : Statistic → List ℚ → Option ℚ
  | Statistic.count, l => some (l.length : ℚ)
  | Statistic.sum, l => some l.sum
  | Statistic.mean, l => if l.length = 0 then none else some (l.sum / l.length)
  | Statistic.min, l =>
      match l with
      | [] => none
      | a :: t => some (t.foldl Min.min a)
  | Statistic.max, l =>
      match l with
      | [] => none
      | a :: t => some (t.foldl Max.max a)
  | Statistic.median, l => medianQ l
  | Statistic.std, _ => none
  | Statistic.circmean, _ => none

/-- Bin edge `i` of `np.linspace(lo, hi, n + 1)` (exact arithmetic). -/
def linEdge (lo hi : ℚ) (n : ℕ) (i : ℕ) : ℚ := lo + i * (hi - lo) / n

/-- The expanded 1-based bin index scipy's `binned_statistic_dd` produces for a
value over `n` equal bins on `[lo, hi]`: `0` below the range, `n + 1` above it,
the final bin `n` for a value exactly on the right edge (scipy shifts
right-edge points one bin left), and otherwise `1 + ⌊(v - lo)·n/(hi - lo)⌋`,
which is exactly `np.digitize` against the linspace edges. -/
def binIdx (lo hi : ℚ) (n : ℕ) (v : ℚ) : ℤ :=
  if v < lo then 0
  else if hi < v then (n : ℤ) + 1
  else if hi ≤ v then (n : ℤ)
  else ⌊(v - lo) * n / (hi - lo)⌋ + 1

/-- The re-orientation `binnumber[1,:] = num_y - binnumber[1,:] + 1` applied to
the raw y bin index. -/
def flipY (ny : ℕ) (bj : ℤ) : ℤ := (ny : ℤ) - bj + 1

/-- The final recoding of one `binnumber` row: the `0` and `n + 1` out-of-range
sentinels become `-1`, valid indices become zero-based. -/
def recode (n : ℕ) (b : ℤ) : ℤ :=
  if b = 0 ∨ b = (n : ℤ) + 1 then -1 else b - 1

/-- One entry of `inside`: neither the x mask nor the (already re-oriented) y
mask flags the point as out of range. -/
def insideBool (nx ny : ℕ) (bi bjf : ℤ) : Bool :=
  !(decide (bi = 0) || decide (bi = (nx : ℤ) + 1)) &&
  !(decide (bjf = 0) || decide (bjf = (ny : ℤ) + 1))

/-- The values that fall into bin `(jx, jy)` (1-based expanded indices), in
input order: zip each point's bin indices with its value and keep the matching
ones. -/
def cellValsF (x ty vals : List ℚ) (xlo xhi ylo yhi : ℚ) (nx ny : ℕ)
    (jx jy : ℤ) : List ℚ :=
  ((((x.map (binIdx xlo xhi nx)).zip (ty.map (binIdx ylo yhi ny))).zip vals).filter
      (fun q => decide (q.1.1 = jx) && decide (q.1.2 = jy))).map (fun q => q.2)

/-- Sum of a statistic grid, reading a NaN cell as 0 (for `count` every cell is
set, so no claim depends on the NaN convention). -/
def gridSum (g : List (List (Option ℚ))) : ℚ :=
  (g.map (fun row => (row.map (fun c => c.getD 0)).sum)).sum

/-- Total of a grid for the `normalize` step: NaN (`none`) anywhere makes the
numpy sum NaN. -/
def gridTotal (g : List (List (Option ℚ))) : Option ℚ :=
  if g.all (fun row => row.all Option.isSome) then some (gridSum g) else none

/-- `statistic = statistic / statistic.sum()`: NaN propagates; the float
`inf`/`nan` results of dividing by a zero total are collapsed to `none`
(no claim evaluates a normalized grid numerically). -/
def normalizeGrid (g : List (List (Option ℚ))) : List (List (Option ℚ)) :=
  g.map (fun row => row.map (fun c =>
    match c, gridTotal g with
    | some a, some s => if s = 0 then none else some (a / s)
    | _, _ => none))

/-- The result record of `bin_statistic` (the `_BinnedStatisticResult`
namedtuple turned dict). -/
structure BinnedStatisticResult where
  statistic : List (List (Option ℚ))
  x_grid : List (List ℚ)
  y_grid : List (List ℚ)
  cx : List (List ℚ)
  cy : List (List ℚ)
  binnumber : List ℤ × List ℤ
  inside : List Bool

/-- The computation of `bin_statistic` after all argument checks: `ty` is the
(possibly inversion-transformed) y data and `xlo xhi ylo yhi` the selected
pitch range.
The `statistic` field is scipy's `(nx, ny)` grid after `np.flip(statistic.T,
axis=0)`: entry `(r, c)` of the final grid is scipy's cell
`(jx, jy) = (c + 1, ny - r)`.
`y_grid` and `cy` are flipped vertically when the pitch is not inverted or the
data is standardized, mirroring `if not dim.invert_y or standardized is not
False`.  `binnumber` is the raw expanded index after the y re-orientation
(`flipY`) and the `-1`/zero-base recoding; `inside` is the conjunction of the
negated masks (`inside` zips the x mask with the mask of the re-oriented y
row, i.e. it is computed from `binIdx` and `flipY` exactly as in the source). -/
def binCore (x ty vals : List ℚ) (xlo xhi ylo yhi : ℚ) (nx ny : ℕ)
    (stat : Statistic) (normalize inv standardized : Bool) :
    BinnedStatisticResult where
  statistic :=
    (fun g => if normalize then normalizeGrid g else g)
      ((List.range ny).map fun r : ℕ => (List.range nx).map fun c : ℕ =>
        applyStat stat
          (cellValsF x ty vals xlo xhi ylo yhi nx ny ((c : ℤ) + 1) ((ny : ℤ) - (r : ℤ))))
  x_grid := List.replicate (ny + 1) ((List.range (nx + 1)).map (linEdge xlo xhi nx))
  y_grid :=
    (fun g => if !inv || standardized then g.reverse else g)
      (((List.range (ny + 1)).map (linEdge ylo yhi ny)).map
        (fun e => List.replicate (nx + 1) e))
  cx := List.replicate ny ((List.range nx).map fun i =>
    linEdge xlo xhi nx i + (linEdge xlo xhi nx (i + 1) - linEdge xlo xhi nx i) / 2)
  cy :=
    (fun g => if !inv || standardized then g.reverse else g)
      ((List.range ny).map fun j => List.replicate nx
        (linEdge ylo yhi ny j + (linEdge ylo yhi ny (j + 1) - linEdge ylo yhi ny j) / 2))
  binnumber :=
    ((x.map (binIdx xlo xhi nx)).map (recode nx),
     ((ty.map (binIdx ylo yhi ny)).map (flipY ny)).map (recode ny))
  inside :=
    List.zipWith (fun bi bj => insideBool nx ny bi (flipY ny bj))
      (x.map (binIdx xlo xhi nx)) (ty.map (binIdx ylo yhi ny))

/-- The `values` default and check: with `statistic == 'count'` a missing
`values` defaults to `x`; a non-count statistic with no `values` raises. -/
def resolveValues (values : Option (List ℚ)) (stat : Statistic) (x : List ℚ) :
    Except PyErr (List ℚ) :=
  match values with
  | none =>
      if stat = Statistic.count then Except.ok x
      else Except.error PyErr.missingParameter
  | some v => Except.ok v

/-- The range selection of `bin_statistic`: the fixed `[[0,105],[0,68]]`
rectangle when `standardized`, otherwise the dims' boundaries (reading
`dim.invert_y`, which raises AttributeError when `dim is None`), negating `y`
relative to `bottom` for inverted pitches. -/
def resolveRange (standardized : Bool) (dim : Option KorfballDims) (y : List ℚ) :
    Except PyErr (ℚ × ℚ × ℚ × ℚ × List ℚ) :=
  if standardized then Except.ok (0, 105, 0, 68, y)
  else
    match dim with
    | none => Except.error PyErr.attributeError
    | some d =>
        if d.invert_y then
          (asNum d.left).bind fun l =>
          (asNum d.right).bind fun r =>
          (asNum d.top).bind fun t =>
          (asNum d.bottom).bind fun b =>
          Except.ok (l, r, t, b, y.map (fun yi => b - yi))
        else
          (asNum d.left).bind fun l =>
          (asNum d.right).bind fun r =>
          (asNum d.bottom).bind fun b =>
          (asNum d.top).bind fun t =>
          Except.ok (l, r, b, t, y)

/-- The unconditional `dim.invert_y` read at the `y_grid`/`cy` flip
(`if not dim.invert_y or standardized is not False`): AttributeError when
`dim is None`, even in standardized mode. -/
def getInvert (dim : Option KorfballDims) : Except PyErr Bool :=
  match dim with
  | none => Except.error PyErr.attributeError
  | some d => Except.ok d.invert_y

/-- `bin_statistic(x, y, values, dim, statistic, bins, normalize,
standardized)` with `bins = (nx, ny)`: the size check, the `values`
default/check, the range selection, scipy's `values` length check, the
`dim.invert_y` read of the grid-flip step, and the pure core. -/
def bin_statistic (x y : List ℚ) (values : Option (List ℚ))
    (dim : Option KorfballDims) (stat : Statistic) (bins : ℕ × ℕ)
    (normalize standardized : Bool) : Except PyErr BinnedStatisticResult :=
  if x.length ≠ y.length then Except.error PyErr.dimensionMismatch
  else
    (resolveValues values stat x).bind fun vals =>
    (resolveRange standardized dim y).bind fun rg =>
    if vals.length ≠ x.length then Except.error PyErr.valuesLengthMismatch
    else
      (getInvert dim).bind fun inv =>
      Except.ok (binCore x rg.2.2.2.2 vals rg.1 rg.2.1 rg.2.2.1 rg.2.2.2.1
        bins.1 bins.2 stat normalize inv standardized)

/-! Helper lemmas -/

theorem oltB_some_some (a b : ℚ) : oltB (some a) (some b) = true ↔ a < b := by
  simp [oltB]

theorem ikf_post_left_eq : ikf_dims.post_left = some (667/100) := rfl
theorem ikf_post_right_eq : ikf_dims.post_right = some (3333/100) := rfl
theorem ikf_korf_left_eq : ikf_dims.korf_left = some (69/10) := rfl
theorem ikf_korf_right_eq : ikf_dims.korf_right = some (3350/100) := rfl
theorem ikf_penalty_left_eq : ikf_dims.penalty_left = some (917/100) := rfl
theorem ikf_penalty_right_eq : ikf_dims.penalty_right = some (3083/100) := rfl
theorem ikf_freepass_left_eq : ikf_dims.freepass_left = some (1167/100) := rfl
theorem ikf_freepass_right_eq : ikf_dims.freepass_right = some (2833/100) := rfl
theorem ikf_center_length_eq : ikf_dims.center_length = some 20 := rfl

/-! Claim theorems -/

/-- C1 counterexample: the claimed ordering chain fails on the concrete `ikf`
variant, because the literal constants have `korf_right = 33.50` to the right
of `post_right = 33.33`, so `korf_right < post_right` is false. -/
theorem C1_cex : ikf_dims.korf_right = some (3350/100) ∧
    ikf_dims.post_right = some (3333/100) ∧ ¬ (ordChainB ikf_dims = true) := by
  refine ⟨rfl, rfl, fun h => ?_⟩
  unfold ordChainB at h
  rw [ikf_korf_right_eq, ikf_post_right_eq] at h
  simp only [Bool.and_eq_true] at h
  have hlast := h.2
  rw [oltB_some_some] at hlast
  norm_num at hlast

/-- C1 (amended): on `ikf` the anatomical chain holds with the two final
landmarks transposed (`post_right` comes before `korf_right`); on `custom`
the `freepass_left`/`freepass_right` landmarks are never assigned (they stay
`None`, so the claimed comparisons through them are undefined), and the
remaining chain `post_left < korf_left < penalty_left < center_length <
penalty_right < korf_right < post_right` holds precisely in the regime
`0 < post_distance` and `post_distance + 2.5 < pitch_length / 2` — not for
arbitrary positive inputs. -/
theorem C1_thm :
    ordChainIkfAmendB ikf_dims = true ∧
    ∀ w L pd : ℚ, 0 < pd → pd + 5/2 < L / 2 →
      ∃ d, custom_dims (some w) (some L) (some pd) = Except.ok d ∧
        oltB d.post_left d.korf_left = true ∧
        oltB d.korf_left d.penalty_left = true ∧
        oltB d.penalty_left d.center_length = true ∧
        oltB d.center_length d.penalty_right = true ∧
        oltB d.penalty_right d.korf_right = true ∧
        oltB d.korf_right d.post_right = true ∧
        d.freepass_left = none ∧ d.freepass_right = none := by
  constructor
  · unfold ordChainIkfAmendB
    rw [ikf_post_left_eq, ikf_post_right_eq, ikf_korf_left_eq, ikf_korf_right_eq,
        ikf_penalty_left_eq, ikf_penalty_right_eq, ikf_freepass_left_eq,
        ikf_freepass_right_eq, ikf_center_length_eq]
    simp only [oltB, Bool.and_eq_true, decide_eq_true_eq]
    norm_num
  · intro w L pd hpd hmid
    refine ⟨_, rfl, ?_, ?_, ?_, ?_, ?_, ?_, rfl, rfl⟩
    · show oltB (some (0 + pd)) (some (0 + pd + 12/100 + 4/10/2)) = true
      rw [oltB_some_some]; linarith
    · show oltB (some (0 + pd + 12/100 + 4/10/2)) (some (0 + pd + 5/2)) = true
      rw [oltB_some_some]; linarith
    · show oltB (some (0 + pd + 5/2)) (some (L/2)) = true
      rw [oltB_some_some]; linarith
    · show oltB (some (L/2)) (some (L - (0 + pd + 5/2))) = true
      rw [oltB_some_some]; linarith
    · show oltB (some (L - (0 + pd + 5/2))) (some (L - (0 + pd + 12/100 + 4/10/2))) = true
      rw [oltB_some_some]; linarith
    · show oltB (some (L - (0 + pd + 12/100 + 4/10/2))) (some (L - (0 + pd))) = true
      rw [oltB_some_some]; linarith

/-- C1 witness: the amended custom chain at the ikf-like sizes 20 x 40 with
post distance 6.67. -/
theorem C1_wit :
    ∃ d, custom_dims (some 20) (some 40) (some (667/100)) = Except.ok d ∧
      oltB d.post_left d.korf_left = true ∧
      oltB d.korf_left d.penalty_left = true ∧
      oltB d.penalty_left d.center_length = true ∧
      oltB d.center_length d.penalty_right = true ∧
      oltB d.penalty_right d.korf_right = true ∧
      oltB d.korf_right d.post_right = true ∧
      d.freepass_left = none ∧ d.freepass_right = none :=
  C1_thm.2 20 40 (667/100) (by norm_num) (by norm_num)

/-- C2 counterexample: for a valid custom construction (20 x 40, post distance
6.67) the `freepass_left` landmark is left unset (`None`). -/
theorem C2_cex :
    (custom_dims (some 20) (some 40) (some (667/100))).map KorfballDims.freepass_left =
      Except.ok none := rfl

/-- C2 (amended): on `ikf` every landmark coordinate field is populated; on
`custom` (any supplied width/length/post-distance) every landmark field is
populated except `freepass_left`, `freepass_right`, `penalty_area_left` and
`penalty_area_right`, which remain `None` after construction. -/
theorem C2_thm :
    landmarksPopulatedB ikf_dims = true ∧
    ∀ w L pd : ℚ, ∃ d, custom_dims (some w) (some L) (some pd) = Except.ok d ∧
      d.post_left.isSome = true ∧ d.post_right.isSome = true ∧
      d.korf_left.isSome = true ∧ d.korf_right.isSome = true ∧
      d.penalty_left.isSome = true ∧ d.penalty_right.isSome = true ∧
      d.penalty_area_top.isSome = true ∧ d.penalty_area_bottom.isSome = true ∧
      d.center_width.isSome = true ∧ d.center_length.isSome = true ∧
      d.freepass_left = none ∧ d.freepass_right = none ∧
      d.penalty_area_left = none ∧ d.penalty_area_right = none :=
  ⟨by decide, fun w L pd =>
    ⟨_, rfl, rfl, rfl, rfl, rfl, rfl, rfl, rfl, rfl, rfl, rfl, rfl, rfl, rfl, rfl⟩⟩

/-- C3: the failing input of the claim.  `create_pitch_dims` never consults the
module-level `valid` list; an unrecognized pitch type falls through to the
final `return custom_dims(...)` line, so `'bogus'` with sufficient parameters
silently returns a custom Dimension Model instead of raising. -/
theorem C3_thm :
    isKorfballOk (create_pitch_dims "bogus" (some 20) (some 40) (some (667/100))) = true := rfl

/-- C4 counterexample: a zero-or-negative size is accepted without any error —
`create_pitch_dims('custom', pitch_width=-5, pitch_length=40, post_distance=1)`
returns a Dimension Model, where the claim says `InvalidConfiguration` is
raised. -/
theorem C4_cex :
    isKorfballOk (create_pitch_dims "custom" (some (-5)) (some 40) (some 1)) = true := rfl

/-- C4 (amended): for `'custom'`, an absent `pitch_width` or `pitch_length`
makes construction fail (with the `TypeError` that `None` arithmetic raises
during field derivation — not a dedicated `MissingParameter` check) and no
Dimension Model is returned; but a supplied zero or negative width/length is
accepted and a model is constructed without any error. -/
theorem C4_thm :
    (∀ w L pd : Option ℚ, w = none ∨ L = none →
        create_pitch_dims "custom" w L pd = Except.error PyErr.typeError) ∧
    (∀ w L pd : ℚ,
        isKorfballOk (create_pitch_dims "custom" (some w) (some L) (some pd)) = true) := by
  constructor
  · rintro w L pd (rfl | rfl)
    · cases L <;> cases pd <;> rfl
    · cases w <;> cases pd <;> rfl
  · intro w L pd
    rfl

/-- C4 witness: the missing-width call of the claim's concrete scenario fails
with the TypeError. -/
theorem C4_wit : create_pitch_dims "custom" none (some 40) (some 1) =
    Except.error PyErr.typeError :=
  C4_thm.1 none (some 40) (some 1) (Or.inl rfl)

/-- C7 counterexample: the code never validates sizes, so a custom model with
`pitch_length = -5` is constructible and its `pitch_extent` starts
`[0, -5, ...]`, violating `pitch_extent[0] < pitch_extent[1]`. -/
theorem C7_cex :
    (custom_dims (some 20) (some (-5)) (some 1)).map KorfballDims.pitch_extent =
      Except.ok [some 0, some (-5), some 0, some 20] ∧ ¬ ((0:ℚ) < -5) :=
  ⟨rfl, by norm_num⟩

/-- C7 (amended): `pitch_extent` always has length 4; the finishing step sets
`pitch_extent = [left, right, top, bottom]` and re-sorts the y-markings
ascending exactly when `invert_y` is true, and otherwise
`[left, right, bottom, top]` with the y-array in natural order; and
`pitch_extent[0] < pitch_extent[1]` holds for `ikf` and for `custom` whenever
the supplied `pitch_length` is positive (the code itself never checks this). -/
theorem C7_thm :
    (∀ d : KorfballDims, (pitch_markings d).pitch_extent.length = 4) ∧
    (∀ d : KorfballDims, (pitch_markings d).pitch_extent =
        (if d.invert_y then [d.left, d.right, d.top, d.bottom]
         else [d.left, d.right, d.bottom, d.top])) ∧
    (∀ d : KorfballDims, (pitch_markings d).y_markings_sorted =
        (if d.invert_y then
          sortOpt [d.bottom, d.penalty_area_bottom, d.center_width, d.penalty_area_top, d.top]
         else [d.bottom, d.penalty_area_bottom, d.center_width, d.penalty_area_top, d.top])) ∧
    (ikf_dims.pitch_extent = [some 0, some 40, some 0, some 20] ∧ ((0:ℚ) < 40)) ∧
    (∀ w L pd : ℚ, 0 < L →
      ∃ d, custom_dims (some w) (some L) (some pd) = Except.ok d ∧
        d.pitch_extent = [some 0, some L, some 0, some w] ∧
        oltB (some (0:ℚ)) (some L) = true) := by
  refine ⟨?_, ?_, ?_, ⟨rfl, by norm_num⟩, ?_⟩
  · intro d
    by_cases h : d.invert_y <;> simp [pitch_markings, h]
  · intro d
    by_cases h : d.invert_y <;> simp [pitch_markings, h]
  · intro d
    by_cases h : d.invert_y <;> simp [pitch_markings, h]
  · intro w L pd hL
    refine ⟨_, rfl, rfl, ?_⟩
    rw [oltB_some_some]
    exact hL

/-- C7 witness: the custom branch of the amended claim at 20 x 40. -/
theorem C7_wit :
    ∃ d, custom_dims (some 20) (some 40) (some (667/100)) = Except.ok d ∧
      d.pitch_extent = [some 0, some 40, some 0, some 20] ∧
      oltB (some (0:ℚ)) (some 40) = true :=
  C7_thm.2.2.2.2 20 40 (667/100) (by norm_num)

theorem resolveValues_error_eq (values : Option (List ℚ)) (stat : Statistic)
    (x : List ℚ) (e : PyErr) (h : resolveValues values stat x = Except.error e) :
    e = PyErr.missingParameter := by
  cases values with
  | some v => simp [resolveValues] at h
  | none =>
    by_cases hs : stat = Statistic.count <;> simp [resolveValues, hs] at h
    exact h.symm

theorem resolveRange_error_eq (standardized : Bool) (dim : Option KorfballDims)
    (y : List ℚ) (e : PyErr) (h : resolveRange standardized dim y = Except.error e) :
    e = PyErr.attributeError ∨ e = PyErr.typeError := by
  cases standardized with
  | true => simp [resolveRange] at h
  | false =>
    cases dim with
    | none =>
      simp [resolveRange] at h
      exact Or.inl h.symm
    | some d =>
      by_cases hi : d.invert_y <;>
        cases hL : d.left <;> cases hR : d.right <;>
        cases hB : d.bottom <;> cases hT : d.top <;>
        simp [resolveRange, hi, hL, hR, hB, hT, asNum, Except.bind] at h <;>
        exact Or.inr h.symm

theorem getInvert_error_eq (dim : Option KorfballDims) (e : PyErr)
    (h : getInvert dim = Except.error e) : e = PyErr.attributeError := by
  cases dim with
  | none =>
    simp [getInvert] at h
    exact h.symm
  | some d => simp [getInvert] at h

/-- C10: even in standardized mode, where the binning range is the fixed
canonical rectangle and no Dimension Model field is needed for range
selection, `bin_statistic` unconditionally reads `dim.invert_y` at the
`y_grid`/`cy` flip, so any otherwise-valid call with `dim = None` fails with
an AttributeError instead of returning a result. -/
theorem C10_thm (x y : List ℚ) (bins : ℕ × ℕ) (normalize : Bool)
    (hxy : x.length = y.length) :
    bin_statistic x y none none Statistic.count bins normalize true =
      Except.error PyErr.attributeError := by
  unfold bin_statistic
  rw [if_neg (by simp [hxy])]
  simp [resolveValues, resolveRange, getInvert, Except.bind]

/-- C10 witness: a concrete standardized call with no dims. -/
theorem C10_wit : bin_statistic [1] [2] none none Statistic.count (5, 4) false true =
    Except.error PyErr.attributeError :=
  C10_thm [1] [2] (5, 4) false rfl

/-- C8: `bin_statistic` raises the size-mismatch `ValueError` exactly when the
x and y inputs differ in length — the check is the first statement of the
function, before any computation, and no later step can produce that error —
and in particular the length-5 versus length-4 call raises it. -/
theorem C8_thm :
    (∀ (x y : List ℚ) (values : Option (List ℚ)) (dim : Option KorfballDims)
        (stat : Statistic) (bins : ℕ × ℕ) (normalize standardized : Bool),
        bin_statistic x y values dim stat bins normalize standardized =
            Except.error PyErr.dimensionMismatch ↔ x.length ≠ y.length) ∧
    bin_statistic [1, 2, 3, 4, 5] [1, 2, 3, 4] none (some ikf_dims) Statistic.count
        (5, 4) false false = Except.error PyErr.dimensionMismatch := by
  constructor
  · intro x y values dim stat bins normalize standardized
    constructor
    · intro h
      by_contra hxy
      unfold bin_statistic at h
      rw [if_neg (by simp [hxy])] at h
      rcases hv : resolveValues values stat x with e | vals
      · have he := resolveValues_error_eq values stat x e hv
        subst he
        rw [hv] at h
        simp [Except.bind] at h
      · rw [hv] at h
        rcases hrg : resolveRange standardized dim y with e | rg
        · have he := resolveRange_error_eq standardized dim y e hrg
          rw [hrg] at h
          rcases he with rfl | rfl <;> simp [Except.bind] at h
        · rw [hrg] at h
          by_cases hvl : vals.length ≠ x.length
          · simp [Except.bind, hvl] at h
          · rcases hg : getInvert dim with e | inv
            · have he := getInvert_error_eq dim e hg
              subst he
              simp [Except.bind, hvl, hg] at h
            · simp [Except.bind, hvl, hg] at h
    · intro h
      unfold bin_statistic
      rw [if_pos h]
  · rfl

theorem bin_statistic_count_reduce (d : KorfballDims) (l r b t : ℚ) (x y : List ℚ)
    (nx ny : ℕ) (normalize : Bool)
    (hl : d.left = some l) (hr : d.right = some r) (hb : d.bottom = some b)
    (ht : d.top = some t) (hinv : d.invert_y = false) (hxy : x.length = y.length) :
    bin_statistic x y none (some d) Statistic.count (nx, ny) normalize false =
      Except.ok (binCore x y x l r b t nx ny Statistic.count normalize false false) := by
  unfold bin_statistic
  rw [if_neg (by simp [hxy])]
  simp [resolveValues, resolveRange, getInvert, asNum, hl, hr, hb, ht, hinv, Except.bind]

theorem binIdx_right_edge (lo hi : ℚ) (n : ℕ) (h : lo < hi) :
    binIdx lo hi n hi = (n : ℤ) := by
  unfold binIdx
  rw [if_neg (not_lt.mpr (le_of_lt h)), if_neg (lt_irrefl hi), if_pos (le_refl hi)]

theorem binIdx_in_range (lo hi : ℚ) (n : ℕ) (v : ℚ) (hlh : lo < hi) (hn : 1 ≤ n)
    (h1 : lo ≤ v) (h2 : v ≤ hi) :
    1 ≤ binIdx lo hi n v ∧ binIdx lo hi n v ≤ (n : ℤ) := by
  unfold binIdx
  rw [if_neg (not_lt.mpr h1), if_neg (not_lt.mpr h2)]
  by_cases hv : hi ≤ v
  · rw [if_pos hv]
    exact ⟨by exact_mod_cast hn, le_refl _⟩
  · rw [if_neg hv]
    have hpos : (0:ℚ) < hi - lo := by linarith
    have hge : (0:ℚ) ≤ (v - lo) * n / (hi - lo) :=
      div_nonneg (mul_nonneg (by linarith) (by positivity)) (le_of_lt hpos)
    have hvlt : v < hi := lt_of_not_le hv
    have hnpos : (0:ℚ) < n := by exact_mod_cast hn
    have hlt : (v - lo) * n / (hi - lo) < n := by
      rw [div_lt_iff₀ hpos]
      nlinarith
    have hf1 : (0:ℤ) ≤ ⌊(v - lo) * n / (hi - lo)⌋ := Int.floor_nonneg.mpr hge
    have hf2 : ⌊(v - lo) * n / (hi - lo)⌋ < (n : ℤ) := by
      rw [Int.floor_lt]
      exact_mod_cast hlt
    omega

theorem binIdx_bounds (lo hi : ℚ) (n : ℕ) (v : ℚ) (hlh : lo < hi) :
    0 ≤ binIdx lo hi n v ∧ binIdx lo hi n v ≤ (n : ℤ) + 1 := by
  unfold binIdx
  split_ifs with h1 h2 h3
  · omega
  · omega
  · omega
  · push_neg at h1 h2 h3
    have hpos : (0:ℚ) < hi - lo := by linarith
    have hge : (0:ℤ) ≤ ⌊(v - lo) * n / (hi - lo)⌋ :=
      Int.floor_nonneg.mpr
        (div_nonneg (mul_nonneg (by linarith) (by positivity)) (le_of_lt hpos))
    have hnn : (0:ℚ) ≤ (n : ℚ) := by positivity
    have hf2 : ⌊(v - lo) * n / (hi - lo)⌋ < (n : ℤ) + 1 := by
      rw [Int.floor_lt]
      push_cast
      have hle : (v - lo) * n / (hi - lo) ≤ n := by
        rw [div_le_iff₀ hpos]
        nlinarith
      linarith
    omega

theorem recode_valid (n : ℕ) (bq : ℤ) (h1 : 1 ≤ bq) (h2 : bq ≤ (n : ℤ)) :
    recode n bq = bq - 1 := by
  unfold recode
  rw [if_neg (by omega)]

/-- C6 counterexample: with the `ikf` pitch and the default `(5, 4)` bins, the
point `(10, 20)` lies exactly on the top edge; it is kept inside, but after the
vertical re-orientation its y entry in `binnumber` is `0` (the topmost row),
not `num_bins - 1 = 3` as the claim states. -/
theorem C6_cex :
    (bin_statistic [10] [20] none (some ikf_dims) Statistic.count (5, 4) false false).map
        (fun res => (res.binnumber.2, res.inside)) = Except.ok ([0], [true]) ∧
      ¬ ((0:ℤ) = 4 - 1) := by
  constructor
  · rw [bin_statistic_count_reduce ikf_dims 0 40 0 20 [10] [20] 5 4 false
        rfl rfl rfl rfl rfl rfl]
    have hby : binIdx 0 20 4 20 = (4 : ℤ) := binIdx_right_edge 0 20 4 (by norm_num)
    obtain ⟨hbx1, hbx2⟩ := binIdx_in_range 0 40 5 10 (by norm_num) (by norm_num)
      (by norm_num) (by norm_num)
    simp only [Except.map, binCore, List.map_cons, List.map_nil,
      List.zipWith_cons_cons, List.zipWith_nil_left, hby, Except.ok.injEq, Prod.mk.injEq]
    constructor
    · norm_num [flipY, recode]
    · simp only [insideBool, flipY, List.cons.injEq, and_true]
      simp only [Bool.and_eq_true, Bool.not_eq_true', Bool.or_eq_false_iff,
        decide_eq_false_iff_not]
      norm_num
      omega
  · omega

/-- C6 (amended): for a non-inverted Dimension Model with `left < right`,
`bottom < top` and at least one bin per axis: a point with x exactly on the
right edge (y in range) is assigned the last x-bin, zero-based index
`nx - 1`, and is inside; a point with y exactly on the top edge (x in range)
is also kept inside, but its y entry in `binnumber` is `0` — the topmost row
after the vertical re-orientation — not `ny - 1` (the claim's value; the two
coincide only when `ny = 1`). -/
theorem C6_thm (d : KorfballDims) (l r b t : ℚ) (nx ny : ℕ) (xv yv : ℚ)
    (hl : d.left = some l) (hr : d.right = some r) (hb : d.bottom = some b)
    (ht : d.top = some t) (hinv : d.invert_y = false) (hlr : l < r) (hbt : b < t)
    (hnx : 1 ≤ nx) (hny : 1 ≤ ny)
    (hx1 : l ≤ xv) (hx2 : xv ≤ r) (hy1 : b ≤ yv) (hy2 : yv ≤ t) :
    (∃ res1, bin_statistic [r] [yv] none (some d) Statistic.count (nx, ny) false false =
        Except.ok res1 ∧ res1.binnumber.1 = [(nx : ℤ) - 1] ∧ res1.inside = [true]) ∧
    (∃ res2, bin_statistic [xv] [t] none (some d) Statistic.count (nx, ny) false false =
        Except.ok res2 ∧ res2.binnumber.2 = [0] ∧ res2.inside = [true]) := by
  have hbr : binIdx l r nx r = (nx : ℤ) := binIdx_right_edge l r nx hlr
  have hbt' : binIdx b t ny t = (ny : ℤ) := binIdx_right_edge b t ny hbt
  obtain ⟨hyv1, hyv2⟩ := binIdx_in_range b t ny yv hbt hny hy1 hy2
  obtain ⟨hxv1, hxv2⟩ := binIdx_in_range l r nx xv hlr hnx hx1 hx2
  constructor
  · refine ⟨_, bin_statistic_count_reduce d l r b t [r] [yv] nx ny false
        hl hr hb ht hinv rfl, ?_, ?_⟩
    · show (([r].map (binIdx l r nx)).map (recode nx)) = [(nx : ℤ) - 1]
      simp only [List.map_cons, List.map_nil, hbr, List.cons.injEq, and_true]
      rw [recode_valid nx (nx : ℤ) (by exact_mod_cast hnx) (le_refl _)]
    · show (List.zipWith (fun bi bj => insideBool nx ny bi (flipY ny bj))
          ([r].map (binIdx l r nx)) ([yv].map (binIdx b t ny))) = [true]
      simp only [List.map_cons, List.map_nil, List.zipWith_cons_cons,
        List.zipWith_nil_left, hbr, List.cons.injEq, and_true]
      simp only [insideBool, flipY, Bool.and_eq_true, Bool.not_eq_true',
        Bool.or_eq_false_iff, decide_eq_false_iff_not]
      omega
  · refine ⟨_, bin_statistic_count_reduce d l r b t [xv] [t] nx ny false
        hl hr hb ht hinv rfl, ?_, ?_⟩
    · show ((([t].map (binIdx b t ny)).map (flipY ny)).map (recode ny)) = [0]
      simp only [List.map_cons, List.map_nil, hbt', List.cons.injEq, and_true]
      simp only [flipY, recode]
      rw [if_neg (by omega)]
      omega
    · show (List.zipWith (fun bi bj => insideBool nx ny bi (flipY ny bj))
          ([xv].map (binIdx l r nx)) ([t].map (binIdx b t ny))) = [true]
      simp only [List.map_cons, List.map_nil, List.zipWith_cons_cons,
        List.zipWith_nil_left, hbt', List.cons.injEq, and_true]
      simp only [insideBool, flipY, Bool.and_eq_true, Bool.not_eq_true',
        Bool.or_eq_false_iff, decide_eq_false_iff_not]
      omega

/-- C6 witness: the ikf pitch with bins (5, 4), a point on the right edge at
`(40, 10)` and a point on the top edge at `(10, 20)`. -/
theorem C6_wit :
    (∃ res1, bin_statistic [(40:ℚ)] [(10:ℚ)] none (some ikf_dims) Statistic.count
        (5, 4) false false = Except.ok res1 ∧
        res1.binnumber.1 = [((5:ℕ) : ℤ) - 1] ∧ res1.inside = [true]) ∧
    (∃ res2, bin_statistic [(10:ℚ)] [(20:ℚ)] none (some ikf_dims) Statistic.count
        (5, 4) false false = Except.ok res2 ∧
        res2.binnumber.2 = [0] ∧ res2.inside = [true]) :=
  C6_thm ikf_dims 0 40 0 20 5 4 10 10 rfl rfl rfl rfl rfl (by norm_num) (by norm_num)
    (by norm_num) (by norm_num) (by norm_num) (by norm_num) (by norm_num) (by norm_num)

theorem countP_zip_proj (u : List (ℤ × ℤ)) (v1 v2 : List ℚ) (jx jy : ℤ)
    (h : v1.length = v2.length) :
    ((u.zip v1).countP fun q => decide (q.1.1 = jx) && decide (q.1.2 = jy)) =
      ((u.zip v2).countP fun q => decide (q.1.1 = jx) && decide (q.1.2 = jy)) := by
  induction u generalizing v1 v2 with
  | nil => simp
  | cons a u ih =>
    cases v1 with
    | nil =>
      cases v2 with
      | nil => rfl
      | cons b2 t2 => simp at h
    | cons b1 t1 =>
      cases v2 with
      | nil => simp at h
      | cons b2 t2 =>
        simp only [List.zip_cons_cons, List.countP_cons]
        rw [ih t1 t2 (by simpa using h)]

theorem countP_zip_fst (u : List (ℤ × ℤ)) (v : List ℚ) (jx jy : ℤ)
    (h : u.length ≤ v.length) :
    ((u.zip v).countP fun q => decide (q.1.1 = jx) && decide (q.1.2 = jy)) =
      (u.countP fun z => decide (z.1 = jx) && decide (z.2 = jy)) := by
  induction u generalizing v with
  | nil => simp
  | cons a u ih =>
    cases v with
    | nil => simp at h
    | cons b tv =>
      simp only [List.zip_cons_cons, List.countP_cons]
      rw [ih tv (by simpa using h)]

theorem binCore_count_values_irrel (x ty v1 v2 : List ℚ) (xlo xhi ylo yhi : ℚ)
    (nx ny : ℕ) (normalize inv standardized : Bool) (h : v1.length = v2.length) :
    binCore x ty v1 xlo xhi ylo yhi nx ny Statistic.count normalize inv standardized =
      binCore x ty v2 xlo xhi ylo yhi nx ny Statistic.count normalize inv standardized := by
  have hcell : ∀ jx jy : ℤ,
      applyStat Statistic.count (cellValsF x ty v1 xlo xhi ylo yhi nx ny jx jy) =
        applyStat Statistic.count (cellValsF x ty v2 xlo xhi ylo yhi nx ny jx jy) := by
    intro jx jy
    simp only [applyStat, cellValsF, List.length_map, ← List.countP_eq_length_filter]
    rw [countP_zip_proj _ v1 v2 jx jy h]
  have hG : ((List.range ny).map fun rr : ℕ => (List.range nx).map fun c : ℕ =>
        applyStat Statistic.count
          (cellValsF x ty v1 xlo xhi ylo yhi nx ny ((c : ℤ) + 1) ((ny : ℤ) - (rr : ℤ)))) =
      ((List.range ny).map fun rr : ℕ => (List.range nx).map fun c : ℕ =>
        applyStat Statistic.count
          (cellValsF x ty v2 xlo xhi ylo yhi nx ny ((c : ℤ) + 1) ((ny : ℤ) - (rr : ℤ)))) := by
    have : (fun rr : ℕ => (List.range nx).map fun c : ℕ =>
          applyStat Statistic.count
            (cellValsF x ty v1 xlo xhi ylo yhi nx ny ((c : ℤ) + 1) ((ny : ℤ) - (rr : ℤ)))) =
        (fun rr : ℕ => (List.range nx).map fun c : ℕ =>
          applyStat Statistic.count
            (cellValsF x ty v2 xlo xhi ylo yhi nx ny ((c : ℤ) + 1) ((ny : ℤ) - (rr : ℤ)))) := by
      funext rr
      congr 1
      funext c
      exact hcell _ _
    rw [this]
  unfold binCore
  simp only [BinnedStatisticResult.mk.injEq, and_true, true_and]
  exact congrArg (fun g => if normalize = true then normalizeGrid g else g) hG

/-- C9: with `statistic='count'` the whole result of `bin_statistic` is
independent of the `values` argument — two runs with any correct-length values
arrays, or with `values` omitted (defaulting to `x`), produce identical
results in every field. -/
theorem C9_thm (x y v1 v2 : List ℚ) (dim : Option KorfballDims) (bins : ℕ × ℕ)
    (normalize standardized : Bool) (h1 : v1.length = x.length)
    (h2 : v2.length = x.length) :
    bin_statistic x y (some v1) dim Statistic.count bins normalize standardized =
      bin_statistic x y (some v2) dim Statistic.count bins normalize standardized ∧
    bin_statistic x y none dim Statistic.count bins normalize standardized =
      bin_statistic x y (some v1) dim Statistic.count bins normalize standardized := by
  have key : ∀ v v' : List ℚ, v.length = x.length → v'.length = x.length →
      bin_statistic x y (some v) dim Statistic.count bins normalize standardized =
        bin_statistic x y (some v') dim Statistic.count bins normalize standardized := by
    intro v v' hv hv'
    unfold bin_statistic
    by_cases hxy : x.length ≠ y.length
    · rw [if_pos hxy, if_pos hxy]
    · rw [if_neg hxy, if_neg hxy]
      simp only [resolveValues]
      rcases hrg : resolveRange standardized dim y with e | rg <;>
        simp only [Except.bind, hrg]
      rw [if_neg (by simp [hv]), if_neg (by simp [hv'])]
      rcases hg : getInvert dim with e | inv <;> simp only [Except.bind, hg]
      exact congrArg _ (binCore_count_values_irrel x _ v v' _ _ _ _ _ _ _ _ _
        (hv.trans hv'.symm))
  have hnone : bin_statistic x y none dim Statistic.count bins normalize standardized =
      bin_statistic x y (some x) dim Statistic.count bins normalize standardized := by
    unfold bin_statistic
    simp [resolveValues]
  exact ⟨key v1 v2 h1 h2, hnone.trans (key x v1 rfl h1)⟩

/-- C9 witness: two different values arrays on the same points give identical
results, as does omitting values. -/
theorem C9_wit :
    bin_statistic [1, 2] [3, 4] (some [10, 20]) (some ikf_dims) Statistic.count
        (5, 4) false false =
      bin_statistic [1, 2] [3, 4] (some [30, 40]) (some ikf_dims) Statistic.count
        (5, 4) false false ∧
    bin_statistic [1, 2] [3, 4] none (some ikf_dims) Statistic.count (5, 4) false false =
      bin_statistic [1, 2] [3, 4] (some [10, 20]) (some ikf_dims) Statistic.count
        (5, 4) false false :=
  C9_thm [1, 2] [3, 4] [10, 20] [30, 40] (some ikf_dims) (5, 4) false false rfl rfl

theorem listSumRange (n : ℕ) (f : ℕ → ℚ) :
    ((List.range n).map f).sum = ∑ i in Finset.range n, f i := by
  induction n with
  | zero => simp
  | succ n ih =>
    rw [List.range_succ, List.map_append, List.sum_append, Finset.sum_range_succ, ih]
    simp

theorem indicator1 (m : ℕ) (z : ℤ) :
    (∑ i in Finset.range m, (if z = (i : ℤ) + 1 then (1:ℚ) else 0)) =
      if 1 ≤ z ∧ z ≤ (m : ℤ) then 1 else 0 := by
  induction m with
  | zero =>
    rw [Finset.sum_range_zero, if_neg (by omega)]
  | succ m ih =>
    rw [Finset.sum_range_succ, ih]
    by_cases h1 : 1 ≤ z ∧ z ≤ (m : ℤ)
    · rw [if_pos h1, if_neg (by omega), if_pos (by push_cast; omega)]
      ring
    · by_cases h2 : z = (m : ℤ) + 1
      · rw [if_neg h1, if_pos h2, if_pos (by push_cast; omega)]
        ring
      · rw [if_neg h1, if_neg h2, if_neg (by push_cast; omega)]
        ring

theorem indicator2 (nx ny : ℕ) (z1 z2 : ℤ) :
    (∑ j in Finset.range ny, ∑ c in Finset.range nx,
        (if z1 = (c : ℤ) + 1 ∧ z2 = (j : ℤ) + 1 then (1:ℚ) else 0)) =
      if ((1 ≤ z1 ∧ z1 ≤ (nx : ℤ)) ∧ 1 ≤ z2) ∧ z2 ≤ (ny : ℤ) then 1 else 0 := by
  have hinner : ∀ j : ℕ, (∑ c in Finset.range nx,
      (if z1 = (c : ℤ) + 1 ∧ z2 = (j : ℤ) + 1 then (1:ℚ) else 0)) =
      if z2 = (j : ℤ) + 1 then (if 1 ≤ z1 ∧ z1 ≤ (nx : ℤ) then (1:ℚ) else 0) else 0 := by
    intro j
    by_cases hz : z2 = (j : ℤ) + 1
    · rw [if_pos hz, ← indicator1 nx z1]
      refine Finset.sum_congr rfl fun c _ => ?_
      simp [hz]
    · rw [if_neg hz]
      refine Finset.sum_eq_zero fun c _ => ?_
      rw [if_neg (by tauto)]
  rw [Finset.sum_congr rfl fun j _ => hinner j]
  by_cases hz1 : 1 ≤ z1 ∧ z1 ≤ (nx : ℤ)
  · have hstep : ∀ j : ℕ,
        (if z2 = (j : ℤ) + 1 then (if 1 ≤ z1 ∧ z1 ≤ (nx : ℤ) then (1:ℚ) else 0) else 0) =
          if z2 = (j : ℤ) + 1 then (1:ℚ) else 0 := by
      intro j
      rw [if_pos hz1]
    rw [Finset.sum_congr rfl fun j _ => hstep j, indicator1 ny z2]
    by_cases hz2 : 1 ≤ z2 ∧ z2 ≤ (ny : ℤ)
    · rw [if_pos hz2, if_pos (by tauto)]
    · rw [if_neg hz2, if_neg (by tauto)]
  · have hstep : ∀ j : ℕ,
        (if z2 = (j : ℤ) + 1 then (if 1 ≤ z1 ∧ z1 ≤ (nx : ℤ) then (1:ℚ) else 0) else 0) =
          (0:ℚ) := by
      intro j
      rw [if_neg hz1]
      split_ifs <;> rfl
    rw [Finset.sum_congr rfl fun j _ => hstep j, Finset.sum_const_zero,
      if_neg (by tauto)]

theorem countP_partition (nx ny : ℕ) (P : List (ℤ × ℤ)) :
    (∑ j in Finset.range ny, ∑ c in Finset.range nx,
        ((P.countP fun z => decide (z.1 = (c : ℤ) + 1) && decide (z.2 = (j : ℤ) + 1) : ℕ) : ℚ)) =
      ((P.countP fun z => decide (1 ≤ z.1) && decide (z.1 ≤ (nx : ℤ)) &&
          decide (1 ≤ z.2) && decide (z.2 ≤ (ny : ℤ)) : ℕ) : ℚ) := by
  induction P with
  | nil => simp
  | cons a P ih =>
    simp only [List.countP_cons]
    push_cast
    simp only [apply_ite (fun n : ℕ => (n : ℚ)), Nat.cast_one, Nat.cast_zero,
      Finset.sum_add_distrib]
    rw [ih]
    congr 1
    simp only [Bool.and_eq_true, decide_eq_true_eq]
    rw [indicator2 nx ny a.1 a.2]

theorem countP_zipWith_insideBool (nx ny : ℕ) (u v : List ℤ) :
    (List.zipWith (fun bi bj => insideBool nx ny bi (flipY ny bj)) u v).countP
        (fun bq => bq == true) =
      (u.zip v).countP (fun z => insideBool nx ny z.1 (flipY ny z.2)) := by
  induction u generalizing v with
  | nil => simp
  | cons a u ih =>
    cases v with
    | nil => simp
    | cons bb v =>
      simp only [List.zipWith_cons_cons, List.zip_cons_cons, List.countP_cons, ih]
      congr 1
      simp

theorem countP_congr_mem {α : Type} (l : List α) (p q : α → Bool)
    (h : ∀ a, a ∈ l → p a = q a) : l.countP p = l.countP q := by
  induction l with
  | nil => rfl
  | cons a l ih =>
    simp only [List.countP_cons]
    rw [h a (by simp), ih (fun bb hb => h bb (by simp [hb]))]

theorem countFalseTrue (bl : List Bool) :
    bl.countP (fun v => v == false) + bl.countP (fun v => v == true) = bl.length := by
  induction bl with
  | nil => rfl
  | cons a bl ih =>
    simp only [List.countP_cons, List.length_cons]
    cases a
    · rw [if_pos (by decide), if_neg (by decide)]
      omega
    · rw [if_neg (by decide), if_pos (by decide)]
      omega

theorem binCore_count_conservation (x y : List ℚ) (l r b t : ℚ) (nx ny : ℕ)
    (hlr : l < r) (hbt : b < t) (hxy : x.length = y.length) :
    gridSum (binCore x y x l r b t nx ny Statistic.count false false false).statistic +
      (((binCore x y x l r b t nx ny Statistic.count false false false).inside.countP
          (fun v => v == false) : ℕ) : ℚ) = (x.length : ℚ) := by
  have hstat : (binCore x y x l r b t nx ny Statistic.count false false false).statistic =
      ((List.range ny).map fun rr : ℕ => (List.range nx).map fun c : ℕ =>
        applyStat Statistic.count
          (cellValsF x y x l r b t nx ny ((c : ℤ) + 1) ((ny : ℤ) - (rr : ℤ)))) := by
    simp [binCore]
  have hins : (binCore x y x l r b t nx ny Statistic.count false false false).inside =
      List.zipWith (fun bi bj => insideBool nx ny bi (flipY ny bj))
        (x.map (binIdx l r nx)) (y.map (binIdx b t ny)) := by
    simp [binCore]
  rw [hstat, hins]
  set bnx := x.map (binIdx l r nx) with hbnxdef
  set bny := y.map (binIdx b t ny) with hbnydef
  have hzlen : (bnx.zip bny).length = x.length := by
    rw [hbnxdef, hbnydef]
    simp [List.length_zip, hxy]
  have hcell : ∀ jx jy : ℤ,
      applyStat Statistic.count (cellValsF x y x l r b t nx ny jx jy) =
        some (((bnx.zip bny).countP fun z =>
          decide (z.1 = jx) && decide (z.2 = jy) : ℕ) : ℚ) := by
    intro jx jy
    simp only [applyStat, cellValsF, List.length_map, ← List.countP_eq_length_filter]
    rw [countP_zip_fst (bnx.zip bny) x jx jy (by rw [hzlen])]
  have hgs : gridSum ((List.range ny).map fun rr : ℕ => (List.range nx).map fun c : ℕ =>
      applyStat Statistic.count
        (cellValsF x y x l r b t nx ny ((c : ℤ) + 1) ((ny : ℤ) - (rr : ℤ)))) =
      ∑ rr in Finset.range ny, ∑ c in Finset.range nx,
        (((bnx.zip bny).countP fun z =>
          decide (z.1 = (c : ℤ) + 1) && decide (z.2 = (ny : ℤ) - (rr : ℤ)) : ℕ) : ℚ) := by
    unfold gridSum
    rw [List.map_map, listSumRange]
    refine Finset.sum_congr rfl fun rr _ => ?_
    simp only [Function.comp_apply]
    rw [List.map_map, listSumRange]
    refine Finset.sum_congr rfl fun c _ => ?_
    simp only [Function.comp_apply]
    rw [hcell]
    rfl
  rw [hgs]
  have hrefl : (∑ rr in Finset.range ny, ∑ c in Finset.range nx,
      (((bnx.zip bny).countP fun z =>
        decide (z.1 = (c : ℤ) + 1) && decide (z.2 = (ny : ℤ) - (rr : ℤ)) : ℕ) : ℚ)) =
      ∑ j in Finset.range ny, ∑ c in Finset.range nx,
      (((bnx.zip bny).countP fun z =>
        decide (z.1 = (c : ℤ) + 1) && decide (z.2 = (j : ℤ) + 1) : ℕ) : ℚ) := by
    conv_rhs => rw [← Finset.sum_range_reflect]
    refine Finset.sum_congr rfl fun j hj => ?_
    refine Finset.sum_congr rfl fun c _ => ?_
    have hj' : j < ny := Finset.mem_range.mp hj
    have hval : ((ny - 1 - j : ℕ) : ℤ) + 1 = (ny : ℤ) - (j : ℤ) := by omega
    rw [hval]
  rw [hrefl, countP_partition nx ny (bnx.zip bny)]
  have htrue : (List.zipWith (fun bi bj => insideBool nx ny bi (flipY ny bj))
        bnx bny).countP (fun v => v == true) =
      (bnx.zip bny).countP (fun z => decide (1 ≤ z.1) && decide (z.1 ≤ (nx : ℤ)) &&
        decide (1 ≤ z.2) && decide (z.2 ≤ (ny : ℤ))) := by
    rw [countP_zipWith_insideBool]
    apply countP_congr_mem
    rintro ⟨z1, z2⟩ hz
    have hz1 := (List.of_mem_zip hz).1
    have hz2 := (List.of_mem_zip hz).2
    rw [hbnxdef] at hz1
    rw [hbnydef] at hz2
    obtain ⟨xi, hximem, hxieq⟩ := List.mem_map.mp hz1
    obtain ⟨yi, hyimem, hyieq⟩ := List.mem_map.mp hz2
    have hbx := binIdx_bounds l r nx xi hlr
    have hby := binIdx_bounds b t ny yi hbt
    rw [hxieq] at hbx
    rw [hyieq] at hby
    simp only [insideBool, flipY]
    simp only [← decide_not, ← Bool.decide_or, ← Bool.decide_and]
    rw [decide_eq_decide]
    omega
  have hlen2 : (List.zipWith (fun bi bj => insideBool nx ny bi (flipY ny bj))
      bnx bny).length = x.length := by
    rw [hbnxdef, hbnydef]
    simp [List.length_zipWith, hxy]
  have hcnt := countFalseTrue
    (List.zipWith (fun bi bj => insideBool nx ny bi (flipY ny bj)) bnx bny)
  rw [htrue, hlen2] at hcnt
  exact_mod_cast congrArg (fun n : ℕ => (n : ℚ)) (by omega :
    ((bnx.zip bny).countP fun z => decide (1 ≤ z.1) && decide (z.1 ≤ (nx : ℤ)) &&
        decide (1 ≤ z.2) && decide (z.2 ≤ (ny : ℤ))) +
      ((List.zipWith (fun bi bj => insideBool nx ny bi (flipY ny bj))
        bnx bny).countP fun v => v == false) = x.length)

/-- C5: conservation of counted points — for any equal-length inputs over a
non-inverted Dimension Model with a nonempty range, the sum over the full
count grid plus the number of points with `inside = false` equals the number
of input points. -/
theorem C5_thm (d : KorfballDims) (l r b t : ℚ) (x y : List ℚ) (nx ny : ℕ)
    (hl : d.left = some l) (hr : d.right = some r) (hb : d.bottom = some b)
    (ht : d.top = some t) (hinv : d.invert_y = false) (hlr : l < r) (hbt : b < t)
    (hxy : x.length = y.length) :
    ∃ res, bin_statistic x y none (some d) Statistic.count (nx, ny) false false =
        Except.ok res ∧
      gridSum res.statistic + ((res.inside.countP (fun v => v == false) : ℕ) : ℚ) =
        (x.length : ℚ) :=
  ⟨_, bin_statistic_count_reduce d l r b t x y nx ny false hl hr hb ht hinv hxy,
    binCore_count_conservation x y l r b t nx ny hlr hbt hxy⟩

/-- C5 witness: two points on the ikf pitch with the default bins, one inside
and one far outside. -/
theorem C5_wit :
    ∃ res, bin_statistic [5, 100] [5, 30] none (some ikf_dims) Statistic.count
        (5, 4) false false = Except.ok res ∧
      gridSum res.statistic + ((res.inside.countP (fun v => v == false) : ℕ) : ℚ) =
        (([5, 100] : List ℚ).length : ℚ) :=
  C5_thm ikf_dims 0 40 0 20 [5, 100] [5, 30] 5 4 rfl rfl rfl rfl rfl
    (by norm_num) (by norm_num) rfl
